import Mathlib

/-!
Verification of the SendGrid event proxy (`src/index.js`).

A shallow embedding of the proxy's marshalling, authentication and request
handling logic, together with theorems settling the specification claims.

Modelling conventions:
* JavaScript strings are Lean `String`s (character lists under the hood).
* A JSON field of an untrusted event is a `JsValue`: absent/`undefined`,
  a string, or an integral number.  (Non-integral numbers do not occur in
  the fields the program inspects; integral values are the modelled
  fragment.)
* Fallible JavaScript code — expressions that can throw — is embedded in
  `Except Unit`; `Except.error ()` models a thrown exception.
* The SHA-256/base64 digest (`crypto`), the `Date`/ISO-8601 rendering and
  the SQS push are external capabilities, taken as function parameters
  `hash`, `toISO` and `push`.
-/

namespace Sendgrid

/-- Decidable equality for `Except`, used to evaluate the embedding on
concrete inputs. -/
instance exceptDecEq {ε α : Type} [DecidableEq ε] [DecidableEq α] :
    DecidableEq (Except ε α)
  | .error e, .error f =>
    if h : e = f then .isTrue (by rw [h]) else .isFalse (by simp [h])
  | .error _, .ok _ => .isFalse (by simp)
  | .ok _, .error _ => .isFalse (by simp)
  | .ok a, .ok b =>
    if h : a = b then .isTrue (by rw [h]) else .isFalse (by simp [h])

/-- A JavaScript value occurring in a parsed JSON event field: absent
(`undefined`), a string, or an (integral) number. -/
inductive JsValue where
  | undefined
  | str (s : String)
  | num (n : Int)
deriving DecidableEq

/-- JavaScript truthiness of a `JsValue`: `undefined` is falsy, a string is
truthy iff non-empty, a number is truthy iff non-zero. -/
def JsValue.truthy : JsValue → Bool
  | .undefined => false
  | .str s => s ≠ ""
  | .num n => n ≠ 0

/-- ECMAScript `String.prototype.split` with a non-empty separator
`p :: ps`, acting on character lists: scan left to right, cut at each
non-overlapping occurrence of the separator, and continue after it. -/
def jsplit (p : Char) (ps : List Char) : List Char → List (List Char)
  | [] => [[]]
  | c :: rest =>
    if (p :: ps).isPrefixOf (c :: rest) then
      [] :: jsplit p ps (rest.drop ps.length)
    else
      match jsplit p ps rest with
      | [] => [[c]]
      | h :: t => (c :: h) :: t
termination_by l => l.length
decreasing_by
  · simp only [List.length_cons, List.length_drop]
    omega
  · simp only [List.length_cons]
    omega

/-- Embeds `s.split(sep)` on strings.  Both call sites in the source
(`split('.filter')` and `split('.')`) pass a non-empty separator; the
empty-separator case is never used and is given a dummy value. -/
def jsSplitOn (sep s : String) : List String :=
  match sep.data with
  | [] => [s]
  | p :: ps => (jsplit p ps s.data).map List.asString

/-- Modelled from the spec: the portion of a character list strictly before
the first occurrence of the pattern `p :: ps`, the whole list when the
pattern does not occur.  Used to compare the source's
`sg_message_id.split('.filter')[0]` against the spec's description. -/
def takeBeforeMarker (p : Char) (ps : List Char) : List Char → List Char
  | [] => []
  | c :: rest =>
    if (p :: ps).isPrefixOf (c :: rest) then []
    else c :: takeBeforeMarker p ps rest

/-- Modelled from the spec: string version of `takeBeforeMarker`. -/
def takeBeforeMarkerStr (pat s : String) : String :=
  match pat.data with
  | [] => s
  | p :: ps => (takeBeforeMarker p ps s.data).asString

theorem jsplit_ne_nil (p : Char) (ps l : List Char) : jsplit p ps l ≠ [] := by
  cases l with
  | nil => simp [jsplit]
  | cons c rest =>
    rw [jsplit]
    split
    · simp
    · split <;> simp

theorem headD_jsplit (p : Char) (ps : List Char) (l : List Char) :
    (jsplit p ps l).headD [] = takeBeforeMarker p ps l := by
  induction l with
  | nil => simp [jsplit, takeBeforeMarker]
  | cons c rest ih =>
    rw [jsplit, takeBeforeMarker]
    split
    · simp
    · cases h : jsplit p ps rest with
      | nil => exact absurd h (jsplit_ne_nil p ps rest)
      | cons hd tl =>
        simp only [List.headD_cons]
        rw [h] at ih
        simp only [List.headD_cons] at ih
        rw [ih]

theorem isPrefixOf_eq_true_iff (l₁ l₂ : List Char) :
    l₁.isPrefixOf l₂ = true ↔ l₁ <+: l₂ :=
  List.isPrefixOf_iff_prefix

theorem takeBeforeMarker_of_not_occurs (p : Char) (ps : List Char)
    (l : List Char) (h : ¬ (p :: ps) <:+: l) : takeBeforeMarker p ps l = l := by
  induction l with
  | nil => simp [takeBeforeMarker]
  | cons c rest ih =>
    rw [takeBeforeMarker]
    split
    · rename_i hpre
      rw [isPrefixOf_eq_true_iff] at hpre
      exact absurd hpre.isInfix h
    · rename_i hpre
      have hrest : ¬ (p :: ps) <:+: rest := by
        intro hin
        rcases hin with ⟨s, t, hst⟩
        exact h ⟨c :: s, t, by simp [hst]⟩
      rw [ih hrest]

theorem takeBeforeMarker_append_occurs (p : Char) (ps : List Char)
    (l : List Char) (h : (p :: ps) <:+: l) :
    takeBeforeMarker p ps l ++ (p :: ps) <+: l := by
  induction l with
  | nil =>
    rcases h with ⟨s, t, hst⟩
    simp at hst
  | cons c rest ih =>
    rw [takeBeforeMarker]
    split
    · rename_i hpre
      rw [isPrefixOf_eq_true_iff] at hpre
      simpa using hpre
    · rename_i hpre
      rw [isPrefixOf_eq_true_iff] at hpre
      have hrest : (p :: ps) <:+: rest := by
        rcases h with ⟨s, t, hst⟩
        cases s with
        | nil =>
          exact absurd ⟨t, by simpa using hst⟩ hpre
        | cons s0 s' =>
          simp only [List.cons_append, List.cons.injEq] at hst
          exact ⟨s', t, hst.2⟩
      rcases ih hrest with ⟨t, ht⟩
      exact ⟨t, by simp [ht]⟩

theorem takeBeforeMarker_length_min (p : Char) (ps : List Char)
    (l u : List Char) (h : u ++ (p :: ps) <+: l) :
    (takeBeforeMarker p ps l).length ≤ u.length := by
  induction l generalizing u with
  | nil =>
    rcases h with ⟨t, ht⟩
    simp at ht
  | cons c rest ih =>
    rw [takeBeforeMarker]
    split
    · simp
    · rename_i hpre
      rw [isPrefixOf_eq_true_iff] at hpre
      cases u with
      | nil =>
        rcases h with ⟨t, ht⟩
        exact absurd ⟨t, by simpa using ht⟩ hpre
      | cons u0 u' =>
        rcases h with ⟨t, ht⟩
        simp only [List.cons_append, List.cons.injEq] at ht
        have := ih u' ⟨t, ht.2⟩
        simpa using Nat.succ_le_succ this

/-! ## Hashing and authentication

`const AUTH_HASH = createHash(AUTH).split('')` and
`function authenticate (auth)` / `function createHash (value)` from
`src/index.js` lines 24, 73-83.  The SHA-256/base64 digest is the abstract
parameter `hash : String → String`. -/

/-- JavaScript string indexing `s[i]`: the character at `i`, `undefined`
when out of range. -/
def charAt (s : String) (i : Nat) : Option Char :=
  s.data.get? i

/-- Embeds `function createHash (value)`: `crypto.createHash('sha256')`,
`hash.update(value)`, `hash.digest('base64')`.  `hash.update` throws a
`TypeError` when its argument is `undefined`, modelled by `Except.error`;
on a string it produces the digest `hash value`. -/
def createHash (hash : String → String) : Option String → Except Unit String
  | none => .error ()
  | some v => .ok (hash v)

/-- Embeds `function authenticate (auth)`: digest the candidate, then reduce over
the characters of the expected digest `AUTH_HASH = createHash(AUTH).split('')`
with `(equal, char, index) => equal && char === authHash[index]`, starting
from `true`.  `secret` is the configured `AUTH` value. -/
def authenticate (hash : String → String) (secret : String)
    (auth : Option String) : Except Unit Bool :=
  match createHash hash auth with
  | .error e => .error e
  | .ok authHash =>
    .ok (((hash secret).data.enum).foldl
      (fun equal ci => equal && (some ci.2 == charAt authHash ci.1)) true)

/-- The list of per-position comparison outcomes produced by the reduce in
`authenticate`: one boolean per character of the expected digest. -/
def authComparisons (hash : String → String) (secret c : String) : List Bool :=
  ((hash secret).data.enum).map fun ci => some ci.2 == charAt (hash c) ci.1

/-! ## The data model

`RawEvent` is an untrusted parsed-JSON event; the canonical notification
shape mirrors the records built in `marshallBounceEvent`,
`marshallDeliveryEvent`, `marshallComplaintEvent` and `marshallMailObject`. -/

/-- An untrusted SendGrid event: every field a `JsValue` (absent fields are
`undefined`). -/
structure RawEvent where
  timestamp : JsValue
  sg_message_id : JsValue
  event : JsValue
  email : JsValue
  status : JsValue
  response : JsValue
  sg_event_id : JsValue
deriving DecidableEq

/-- The shared `mail` object: `{ timestamp, messageId }`. -/
structure Mail where
  timestamp : String
  messageId : String
deriving DecidableEq

/-- A `{ emailAddress }` record in `bouncedRecipients` / `complainedRecipients`. -/
structure Recipient where
  emailAddress : JsValue
deriving DecidableEq

/-- The `bounce` sub-record built by `marshallBounceEvent`. -/
structure BounceRecord where
  bounceType : String
  bounceSubType : String
  bouncedRecipients : List Recipient
  timestamp : String
  feedbackId : JsValue
deriving DecidableEq

/-- The `delivery` sub-record built by `marshallDeliveryEvent`. -/
structure DeliveryRecord where
  timestamp : String
  recipients : List JsValue
  smtpResponse : JsValue
deriving DecidableEq

/-- The `complaint` sub-record built by `marshallComplaintEvent`. -/
structure ComplaintRecord where
  complainedRecipients : List Recipient
  timestamp : String
  feedbackId : JsValue
deriving DecidableEq

/-- The tagged part of a canonical notification: the `notificationType`
string together with exactly one of the `bounce` / `delivery` / `complaint`
keys, modelled as a sum (the tag uniquely determines the key). -/
inductive NotificationBody where
  | bounce (b : BounceRecord)
  | delivery (d : DeliveryRecord)
  | complaint (c : ComplaintRecord)
deriving DecidableEq

/-- A canonical notification: the shared `mail` object spread together with
one marshalled event body. -/
structure Notification where
  mail : Mail
  body : NotificationBody
deriving DecidableEq

/-- The `notificationType` string carried by each marshalled body. -/
def NotificationBody.notificationType : NotificationBody → String
  | .bounce _ => "Bounce"
  | .delivery _ => "Delivery"
  | .complaint _ => "Complaint"

/-- The `timestamp` field of the event-specific sub-record. -/
def NotificationBody.timestampOf : NotificationBody → String
  | .bounce b => b.timestamp
  | .delivery d => d.timestamp
  | .complaint c => c.timestamp

/-! ## Timestamp conversion

`function mapTimestamp (timestamp)`: `new Date(timestamp * 1000).toISOString()`.
`toISO` abstracts `Date.prototype.toISOString` on a valid time value;
ECMA-262 limits time values to `|ms| ≤ 8_640_000_000_000_000`, and
`toISOString` throws a `RangeError` on an invalid date (`NaN` or out of
range). -/

/-- ECMA-262's largest admissible time value in milliseconds. -/
def MAX_TIME_MS : Int := 8640000000000000

/-- Embeds `new Date(ms).toISOString()` for an integral millisecond count:
the rendered string when in range, a thrown `RangeError` otherwise. -/
def dateToISO (toISO : Int → String) (ms : Int) : Except Unit String :=
  if -MAX_TIME_MS ≤ ms ∧ ms ≤ MAX_TIME_MS then .ok (toISO ms) else .error ()

/-- Decimal digits to a number: `none` as soon as a non-digit appears. -/
def digitsToNatAux : List Char → Nat → Option Nat
  | [], acc => some acc
  | c :: rest, acc =>
    if c.isDigit then digitsToNatAux rest (acc * 10 + (c.toNat - '0'.toNat))
    else none

/-- A non-empty run of decimal digits as a number. -/
def digitsToNat : List Char → Option Nat
  | [] => none
  | l => digitsToNatAux l 0

/-- ECMAScript `ToNumber` on a string, restricted to the integral fragment:
surrounding whitespace is trimmed, the empty string is `0`, a decimal
integer literal (optionally negated) is its value, and anything else is
treated as `NaN` (exotic numeric forms — hex, exponents, non-integral
decimals — are outside the modelled fragment). -/
def jsStringToInt (s : String) : Option Int :=
  match (s.data.dropWhile Char.isWhitespace).reverse.dropWhile Char.isWhitespace
      |>.reverse with
  | [] => some 0
  | '-' :: ds => (digitsToNat ds).map fun n => -(n : Int)
  | ds => (digitsToNat ds).map fun n => (n : Int)

/-- Embeds `function mapTimestamp (timestamp)` on a `JsValue`:
`timestamp * 1000` coerces via `ToNumber` (`undefined` gives `NaN`), then
`new Date(...).toISOString()`. -/
def mapTimestamp (toISO : Int → String) : JsValue → Except Unit String
  | .num n => dateToISO toISO (n * 1000)
  | .str s =>
    match jsStringToInt s with
    | some n => dateToISO toISO (n * 1000)
    | none => .error ()
  | .undefined => .error ()

/-! ## Marshalling -/

/-- Embeds `function marshallMailObject (event, timestamp)`:
`event.sg_message_id.split('.filter')[0]` (a `TypeError` when
`sg_message_id` is not a string) paired with the ISO timestamp. -/
def marshallMailObject (e : RawEvent) (timestamp : String) : Except Unit Mail :=
  match e.sg_message_id with
  | .str s =>
    .ok { timestamp := timestamp, messageId := (jsSplitOn ".filter" s).headD "" }
  | _ => .error ()

/-- Embeds `function mapStatusToBounceSubType (statusParts)`: switch on
`statusParts[1]`, nested switch on `statusParts[2]`; `none` models the
`undefined` returned when no case matches. -/
def mapStatusToBounceSubType (statusParts : List String) : Option String :=
  match statusParts.get? 1 with
  | some "1" => some "NoEmail"
  | some "2" =>
    match statusParts.get? 2 with
    | some "2" => some "MailboxFull"
    | some "3" => some "MessageTooLarge"
    | _ => none
  | some "6" => some "ContentRejected"
  | _ => none

/-- The `let bounceType, bounceSubType; if ... else ...` block of
`marshallBounceEvent`: the two locals after the conditional ran (`none`
models an unset `undefined` local).  `dropped` events get
`Permanent`/`Suppressed`; otherwise `event.status && event.status.split('.')`
(a truthy non-string status makes `split` throw) and, on exactly three
parts, `statusParts[0] === '5'` sets `Permanent` and
`mapStatusToBounceSubType` picks the sub-type. -/
def bounceTypePair (e : RawEvent) : Except Unit (Option String × Option String) :=
  if e.event = .str "dropped" then
    pure (some "Permanent", some "Suppressed")
  else do
    let statusParts : Option (List String) ←
      match e.status with
      | .str s => if s = "" then pure none else pure (some (jsSplitOn "." s))
      | .num n => if n = 0 then pure none else .error ()
      | .undefined => pure none
    match statusParts with
    | some parts =>
      if parts.length = 3 then
        pure ((if parts.get? 0 = some "5" then some "Permanent" else none),
              mapStatusToBounceSubType parts)
      else pure (none, none)
    | none => pure (none, none)

/-- Embeds `function marshallBounceEvent (event, timestamp)`: run the
type/sub-type conditional, then build the bounce record, unset values
defaulting to `Transient` / `General` via `||`. -/
def marshallBounceEvent (e : RawEvent) (timestamp : String) :
    Except Unit NotificationBody := do
  let pair ← bounceTypePair e
  pure (.bounce {
    bounceType := pair.1.getD "Transient",
    bounceSubType := pair.2.getD "General",
    bouncedRecipients := [{ emailAddress := e.email }],
    timestamp := timestamp,
    feedbackId := e.sg_event_id })

/-- Embeds `function marshallDeliveryEvent (event, timestamp)`. -/
def marshallDeliveryEvent (e : RawEvent) (timestamp : String) : NotificationBody :=
  .delivery {
    timestamp := timestamp,
    recipients := [e.email],
    smtpResponse := e.response }

/-- Embeds `function marshallComplaintEvent (event, timestamp)`. -/
def marshallComplaintEvent (e : RawEvent) (timestamp : String) : NotificationBody :=
  .complaint {
    complainedRecipients := [{ emailAddress := e.email }],
    timestamp := timestamp,
    feedbackId := e.sg_event_id }

/-- Embeds `function marshallEvent (event)`: return `undefined` (`ok none`) when
the event or a required field is falsy, otherwise convert the timestamp,
build the mail object and switch on `event.event`; unrecognized values
fall through to `undefined`.  `none` as input models a falsy array
element. -/
def marshallEvent (toISO : Int → String) :
    Option RawEvent → Except Unit (Option Notification)
  | none => .ok none
  | some e =>
    if !e.timestamp.truthy || !e.sg_message_id.truthy || !e.event.truthy then
      .ok none
    else do
      let timestamp ← mapTimestamp toISO e.timestamp
      let mail ← marshallMailObject e timestamp
      match e.event with
      | .str "bounce" => do
        let body ← marshallBounceEvent e timestamp
        pure (some { mail := mail, body := body })
      | .str "dropped" => do
        let body ← marshallBounceEvent e timestamp
        pure (some { mail := mail, body := body })
      | .str "delivered" =>
        pure (some { mail := mail, body := marshallDeliveryEvent e timestamp })
      | .str "spamreport" =>
        pure (some { mail := mail, body := marshallComplaintEvent e timestamp })
      | _ => pure none

/-! ## Dispatch

`const QUEUES = {...}`, `function sendEvent (event)` and
`async function processEvents (events)`.  The SQS push capability is the
abstract parameter `push : String → Notification → Bool` (queue name and
message to success flag); `true` is a resolved push, `false` a rejected
one whose error `sendEvent` rethrows. -/

/-- The `QUEUES` table looked up at `QUEUES[event.notificationType]`:
queue names composed from the configured `SQS_SUFFIX`. -/
def queueFor (suffix : String) : NotificationBody → String
  | .bounce _ => "fxa-email-bounce-" ++ suffix
  | .complaint _ => "fxa-email-complaint-" ++ suffix
  | .delivery _ => "fxa-email-delivery-" ++ suffix

/-- Embeds `function sendEvent (event)`: push the notification onto its queue;
a rejected push logs and rethrows, so the call's outcome is the push's
outcome.  (Logging is I/O and not modelled.) -/
def sendEvent (suffix : String) (push : String → Notification → Bool)
    (n : Notification) : Bool :=
  push (queueFor suffix n.body) n

/-- Embeds `events.map(marshallEvent)`: JavaScript `map` applies the callback left
to right and the first thrown exception aborts the whole expression. -/
def marshallAll (toISO : Int → String) :
    List (Option RawEvent) → Except Unit (List (Option Notification))
  | [] => .ok []
  | e :: rest => do
    let n ← marshallEvent toISO e
    let ns ← marshallAll toISO rest
    pure (n :: ns)

/-- Embeds `.filter(event => !! event)`: the marshalled events that survived. -/
def survivors (l : List (Option Notification)) : List Notification :=
  l.filterMap id

/-- Embeds `async function processEvents (events)`:
`Promise.all(events.map(marshallEvent).filter(...).map(sendEvent))`.
First component: the awaited result — the settled batch on success, an
error when marshalling threw or any push rejected (`Promise.all` surfaces
the first rejection).  Second component: the dispatch calls actually
issued, in order; `Promise.all` issues every push before waiting, so on a
marshalling throw none are issued and otherwise all survivors are. -/
def processEvents (toISO : Int → String) (suffix : String)
    (push : String → Notification → Bool) (events : List (Option RawEvent)) :
    Except Unit (List Notification) × List (String × Notification) :=
  match marshallAll toISO events with
  | .error e => (.error e, [])
  | .ok marshalled =>
    let sent := survivors marshalled
    let calls := sent.map fun n => (queueFor suffix n.body, n)
    if sent.all (sendEvent suffix push) then (.ok sent, calls)
    else (.error (), calls)

/-! ## The request handler

`async function main (data)`.  The argument is either an API-gateway
request with a truthy `body` (its `JSON.parse` outcome and the
`queryStringParameters.auth` value), or a direct invocation whose payload
is used as the event batch. -/

/-- A parsed event batch: `JSON.parse` yields an array or a single value
(`Array.isArray` decides); a single falsy or non-object value behaves like
an event whose fields are all `undefined`, covered by `Option RawEvent`. -/
inductive Payload where
  | single (e : Option RawEvent)
  | array (es : List (Option RawEvent))
deriving DecidableEq

/-- Embeds `if (!Array.isArray(data)) data = [data]`. -/
def Payload.toArray : Payload → List (Option RawEvent)
  | .single e => [e]
  | .array es => es

/-- The argument of `main`:
`request body qsp` models `data` with a truthy `body` — `body` is the
outcome of `JSON.parse(data.body)` and `qsp` is `data.queryStringParameters`
(`none` when falsy) with its `.auth` member (`none` when absent).
`direct` models any `data` with a falsy/absent `body`. -/
inductive MainData where
  | request (body : Except Unit Payload) (qsp : Option (Option String))
  | direct (payload : Payload)

/-- The response envelope `{ statusCode, body, isBase64Encoded }`. -/
structure Response where
  statusCode : Nat
  body : String
  isBase64Encoded : Bool
deriving DecidableEq

/-- The 401 response literal from `main`. -/
def response401 : Response :=
  { statusCode := 401, body := "Unauthorized", isBase64Encoded := false }

/-- The 500 response literal from `main`'s catch block. -/
def response500 : Response :=
  { statusCode := 500, body := "Internal Server Error", isBase64Encoded := false }

/-- Embeds `async function main (data)`: authenticate gateway requests, parse the
body, coerce to a batch, process, and map any thrown exception to a
generic 500.  The second component records the dispatch calls issued
while handling the request. -/
def main (hash : String → String) (secret : String) (toISO : Int → String)
    (suffix : String) (push : String → Notification → Bool) (data : MainData) :
    Response × List (String × Notification) :=
  let run : Payload → Response × List (String × Notification) := fun payload =>
    match processEvents toISO suffix push payload.toArray with
    | (.ok results, calls) =>
      ({ statusCode := 200,
         body := "Processed " ++ toString results.length ++ " events",
         isBase64Encoded := false }, calls)
    | (.error _, calls) => (response500, calls)
  match data with
  | .direct payload => run payload
  | .request body qsp =>
    match qsp with
    | none => (response401, [])
    | some auth =>
      match authenticate hash secret auth with
      | .error _ => (response500, [])
      | .ok ok =>
        if ok then
          match body with
          | .error _ => (response500, [])
          | .ok payload => run payload
        else (response401, [])

/-! ## Properties of the authenticator -/

theorem foldl_and_eq {α : Type} (l : List α) (f : α → Bool) (b : Bool) :
    l.foldl (fun acc x => acc && f x) b = (b && l.all f) := by
  induction l generalizing b with
  | nil => simp
  | cons a t ih => simp [List.foldl_cons, ih, Bool.and_assoc]

theorem authenticate_some_eq (hash : String → String) (secret c : String) :
    authenticate hash secret (some c) =
      .ok (((hash secret).data.enum).all
        fun ci => some ci.2 == charAt (hash c) ci.1) := by
  simp [authenticate, createHash, foldl_and_eq]

theorem all_enumFrom_iff (cand : String) (l : List Char) (k : Nat) :
    ((l.enumFrom k).all fun ci => some ci.2 == charAt cand ci.1) = true ↔
      ∀ i, i < l.length → cand.data.get? (k + i) = l.get? i := by
  induction l generalizing k with
  | nil => simp
  | cons a t ih =>
    simp only [List.enumFrom, List.all_cons, Bool.and_eq_true]
    rw [ih (k + 1)]
    constructor
    · rintro ⟨h0, hrest⟩
      intro i hi
      cases i with
      | zero =>
        have h0' : some a = charAt cand k := beq_iff_eq.mp h0
        simp only [charAt] at h0'
        simpa using h0'.symm
      | succ j =>
        have := hrest j (by simpa using hi)
        simpa [Nat.add_assoc, Nat.add_comm 1 j] using this
    · intro h
      constructor
      · have h0 := h 0 (by simp)
        simp only [Nat.add_zero, List.get?_cons_zero] at h0
        rw [beq_iff_eq, charAt]
        exact h0.symm
      · intro j hj
        have := h (j + 1) (by simpa using hj)
        simpa [Nat.add_assoc, Nat.add_comm 1 j] using this

theorem all_enum_iff (cand : String) (l : List Char) :
    (l.enum.all fun ci => some ci.2 == charAt cand ci.1) = true ↔
      ∀ i, i < l.length → cand.data.get? i = l.get? i := by
  have := all_enumFrom_iff cand l 0
  simpa [List.enum] using this

/-- C2: for every credential string `c`, `authenticate` accepts `c` exactly
when the digest of `c` equals the precomputed digest of the configured
secret.  `hfix` records the fixed-output-length property of the real
SHA-256/base64 digest (all digests are 44 characters long), under which
the position-by-position reduce decides digest equality. -/
theorem authenticate_iff_digest_eq (hash : String → String) (secret c : String)
    (hfix : ∀ x y : String, (hash x).length = (hash y).length) :
    authenticate hash secret (some c) = .ok true ↔ hash c = hash secret := by
  rw [authenticate_some_eq]
  simp only [Except.ok.injEq]
  rw [all_enum_iff]
  constructor
  · intro hall
    apply String.ext
    apply List.ext
    intro n
    by_cases hn : n < (hash secret).data.length
    · exact hall n hn
    · push_neg at hn
      have hlen : (hash c).data.length = (hash secret).data.length := hfix c secret
      rw [List.get?_eq_none.mpr hn, List.get?_eq_none.mpr (by omega)]
  · intro h i hi
    rw [h]

/-- Witness for C2 at a concrete fixed-length digest function. -/
theorem authenticate_iff_digest_eq_witness :
    (∀ x y : String, ((fun _ => "aa" : String → String) x).length =
        ((fun _ => "aa" : String → String) y).length)
    ∧ (authenticate (fun _ => "aa") "sec" (some "c") = .ok true ↔
        (fun _ => "aa" : String → String) "c" = (fun _ => "aa" : String → String) "sec") :=
  ⟨fun _ _ => rfl, authenticate_iff_digest_eq (fun _ => "aa") "sec" "c" (fun _ _ => rfl)⟩

/-- C8: the reduce in `authenticate` produces one comparison per character
of the expected digest — `authComparisons` has exactly the expected
digest's length and `authenticate` is its conjunction — and when the
candidate's digest is shorter, every position at or beyond its length
compares `undefined` and yields `false` without throwing, so the whole
comparison completes and returns `false`. -/
theorem authenticate_full_compare (hash : String → String) (secret c : String) :
    (authComparisons hash secret c).length = (hash secret).length
    ∧ authenticate hash secret (some c) = .ok ((authComparisons hash secret c).all id)
    ∧ ((hash c).length < (hash secret).length →
        authenticate hash secret (some c) = .ok false
        ∧ ∀ i, (hash c).length ≤ i → i < (hash secret).length →
            (authComparisons hash secret c).get? i = some false) := by
  have hcomp : ∀ i, i < (hash secret).length → (hash c).length ≤ i →
      (authComparisons hash secret c).get? i = some false := by
    intro i hi hci
    have hsec : i < (hash secret).data.length := hi
    rw [authComparisons, List.get?_map, List.get?_enum,
      (List.get?_eq_some.mpr ⟨hsec, rfl⟩ :
        (hash secret).data.get? i = some ((hash secret).data.get ⟨i, hsec⟩))]
    have hnone : charAt (hash c) i = none := by
      rw [charAt]
      exact List.get?_eq_none.mpr hci
    simp [hnone]
  have hallform : (((hash secret).data.enum).all
      fun ci => some ci.2 == charAt (hash c) ci.1) =
        (authComparisons hash secret c).all id := by
    rw [authComparisons]
    induction (hash secret).data.enum with
    | nil => rfl
    | cons a t ih => simp [List.all_cons, ih]
  refine ⟨?_, ?_, ?_⟩
  · simp [authComparisons]
  · rw [authenticate_some_eq, hallform]
  · intro hlt
    constructor
    · rw [authenticate_some_eq]
      have hmem : (false : Bool) ∈ authComparisons hash secret c := by
        exact List.get?_mem (hcomp (hash c).length hlt le_rfl)
      have hall : (authComparisons hash secret c).all id = false := by
        cases hallc : (authComparisons hash secret c).all id with
        | false => rfl
        | true =>
          have := List.all_eq_true.mp hallc false hmem
          simp at this
      rw [hallform, hall]
    · intro i hci hi
      exact hcomp i hi hci

/-- Witness for C8 with a candidate digest strictly shorter than the
expected one. -/
theorem authenticate_full_compare_witness :
    ((fun s => if s = "sec" then "abcd" else "ab" : String → String) "c").length <
      ((fun s => if s = "sec" then "abcd" else "ab" : String → String) "sec").length
    ∧ authenticate (fun s => if s = "sec" then "abcd" else "ab") "sec" (some "c") =
        .ok false :=
  ⟨by decide,
   ((authenticate_full_compare (fun s => if s = "sec" then "abcd" else "ab")
      "sec" "c").2.2 (by decide)).1⟩

/-! ## Properties of the messageId extraction -/

theorem asString_data (s : String) : s.data.asString = s := rfl

theorem data_asString (l : List Char) : l.asString.data = l := rfl

theorem jsSplitOn_headD (pat s : String) :
    (jsSplitOn pat s).headD "" = takeBeforeMarkerStr pat s := by
  rcases hd : pat.data with _ | ⟨p, ps⟩
  · simp [jsSplitOn, takeBeforeMarkerStr, hd]
  · simp only [jsSplitOn, takeBeforeMarkerStr, hd]
    cases hsp : jsplit p ps s.data with
    | nil => exact absurd hsp (jsplit_ne_nil p ps s.data)
    | cons h t =>
      have := headD_jsplit p ps s.data
      rw [hsp] at this
      simp only [List.headD_cons] at this
      simp [this]

/-- C5: for every raw event whose `sg_message_id` is a string `s`, the mail
object's `messageId` is `s.split('.filter')[0]`, which equals the portion
of `s` strictly before the first occurrence of the literal substring
`".filter"` (`takeBeforeMarkerStr`, modelled from the spec): it is the
whole of `s` when the marker is absent, and otherwise it is the shortest
string that can precede an occurrence of the marker in `s` — followed by
the marker it is a prefix of `s`.  The final conjunct is the spec's worked
example. -/
theorem messageId_strips_filter_suffix (e : RawEvent) (ts s : String)
    (hs : e.sg_message_id = .str s) :
    marshallMailObject e ts =
      .ok { timestamp := ts, messageId := takeBeforeMarkerStr ".filter" s }
    ∧ (¬ ".filter".data <:+: s.data → takeBeforeMarkerStr ".filter" s = s)
    ∧ (".filter".data <:+: s.data →
        (takeBeforeMarkerStr ".filter" s).data ++ ".filter".data <+: s.data)
    ∧ (∀ u : List Char, u ++ ".filter".data <+: s.data →
        (takeBeforeMarkerStr ".filter" s).data.length ≤ u.length)
    ∧ (jsSplitOn ".filter" "14c5d75ce93.dfd.64b469.filter0001.16648.5515E0B88.0").headD ""
        = "14c5d75ce93.dfd.64b469" := by
  have htbm : takeBeforeMarkerStr ".filter" s =
      (takeBeforeMarker '.' "filter".data s.data).asString := rfl
  have hd : (".filter" : String).data = ('.' :: "filter".data) := rfl
  refine ⟨?_, ?_, ?_, ?_, ?_⟩
  · simp only [marshallMailObject, hs]
    rw [jsSplitOn_headD]
  · intro h
    rw [hd] at h
    rw [htbm, takeBeforeMarker_of_not_occurs _ _ _ h, asString_data]
  · intro h
    rw [hd] at h
    rw [htbm, data_asString, hd]
    exact takeBeforeMarker_append_occurs _ _ _ h
  · intro u h
    rw [hd] at h
    rw [htbm, data_asString]
    exact takeBeforeMarker_length_min _ _ _ _ h
  · rw [jsSplitOn_headD]
    decide

/-- Witness for C5 at a concrete event. -/
theorem messageId_strips_filter_suffix_witness :
    ({ timestamp := .num 1, sg_message_id := .str "a.filterb", event := .str "delivered",
       email := .undefined, status := .undefined, response := .undefined,
       sg_event_id := .undefined } : RawEvent).sg_message_id = .str "a.filterb"
    ∧ marshallMailObject
        { timestamp := .num 1, sg_message_id := .str "a.filterb", event := .str "delivered",
          email := .undefined, status := .undefined, response := .undefined, sg_event_id := .undefined }
        "T" = .ok { timestamp := "T", messageId := takeBeforeMarkerStr ".filter" "a.filterb" } :=
  ⟨rfl,
   (messageId_strips_filter_suffix
     { timestamp := .num 1, sg_message_id := .str "a.filterb", event := .str "delivered",
       email := .undefined, status := .undefined, response := .undefined, sg_event_id := .undefined }
     "T" "a.filterb" rfl).1⟩

/-! ## Properties of the bounce classification -/

theorem jsSplitOn_dot_511 : jsSplitOn "." "5.1.1" = ["5", "1", "1"] := by
  simp [jsSplitOn, jsplit, List.isPrefixOf]
  decide

theorem jsSplitOn_dot_422 : jsSplitOn "." "4.2.2" = ["4", "2", "2"] := by
  simp [jsSplitOn, jsplit, List.isPrefixOf]
  decide

theorem jsSplitOn_dot_523 : jsSplitOn "." "5.2.3" = ["5", "2", "3"] := by
  simp [jsSplitOn, jsplit, List.isPrefixOf]
  decide

theorem jsSplitOn_dot_560 : jsSplitOn "." "5.6.0" = ["5", "6", "0"] := by
  simp [jsSplitOn, jsplit, List.isPrefixOf]
  decide

/-- C3: classification of bounce events.  For a raw event with
`event == 'bounce'`: status `"5.1.1"` yields `Permanent`/`NoEmail`,
`"4.2.2"` yields `Transient`/`MailboxFull`, `"5.2.3"` yields
`Permanent`/`MessageTooLarge`, `"5.6.0"` yields
`Permanent`/`ContentRejected`, and an absent status or one that does not
split into exactly three dot-separated parts yields the defaults
`Transient`/`General`.  For `event == 'dropped'` the result is always
`Permanent`/`Suppressed`, whatever the status field holds. -/
theorem bounce_subtype_mapping (e : RawEvent) (ts : String) :
    (e.event = .str "bounce" →
      (e.status = .str "5.1.1" → marshallBounceEvent e ts = .ok (.bounce
        { bounceType := "Permanent", bounceSubType := "NoEmail",
          bouncedRecipients := [{ emailAddress := e.email }],
          timestamp := ts, feedbackId := e.sg_event_id }))
      ∧ (e.status = .str "4.2.2" → marshallBounceEvent e ts = .ok (.bounce
        { bounceType := "Transient", bounceSubType := "MailboxFull",
          bouncedRecipients := [{ emailAddress := e.email }],
          timestamp := ts, feedbackId := e.sg_event_id }))
      ∧ (e.status = .str "5.2.3" → marshallBounceEvent e ts = .ok (.bounce
        { bounceType := "Permanent", bounceSubType := "MessageTooLarge",
          bouncedRecipients := [{ emailAddress := e.email }],
          timestamp := ts, feedbackId := e.sg_event_id }))
      ∧ (e.status = .str "5.6.0" → marshallBounceEvent e ts = .ok (.bounce
        { bounceType := "Permanent", bounceSubType := "ContentRejected",
          bouncedRecipients := [{ emailAddress := e.email }],
          timestamp := ts, feedbackId := e.sg_event_id }))
      ∧ (e.status = .undefined → marshallBounceEvent e ts = .ok (.bounce
        { bounceType := "Transient", bounceSubType := "General",
          bouncedRecipients := [{ emailAddress := e.email }],
          timestamp := ts, feedbackId := e.sg_event_id }))
      ∧ (∀ s : String, e.status = .str s → (jsSplitOn "." s).length ≠ 3 →
          marshallBounceEvent e ts = .ok (.bounce
        { bounceType := "Transient", bounceSubType := "General",
          bouncedRecipients := [{ emailAddress := e.email }],
          timestamp := ts, feedbackId := e.sg_event_id })))
    ∧ (e.event = .str "dropped" → marshallBounceEvent e ts = .ok (.bounce
        { bounceType := "Permanent", bounceSubType := "Suppressed",
          bouncedRecipients := [{ emailAddress := e.email }],
          timestamp := ts, feedbackId := e.sg_event_id })) := by
  constructor
  · intro hb
    refine ⟨?_, ?_, ?_, ?_, ?_, ?_⟩
    · intro hst
      simp [marshallBounceEvent, bounceTypePair, Functor.map, Except.map, hb, hst, jsSplitOn_dot_511, mapStatusToBounceSubType]
      rfl
    · intro hst
      simp [marshallBounceEvent, bounceTypePair, Functor.map, Except.map, hb, hst, jsSplitOn_dot_422, mapStatusToBounceSubType]
      rfl
    · intro hst
      simp [marshallBounceEvent, bounceTypePair, Functor.map, Except.map, hb, hst, jsSplitOn_dot_523, mapStatusToBounceSubType]
      rfl
    · intro hst
      simp [marshallBounceEvent, bounceTypePair, Functor.map, Except.map, hb, hst, jsSplitOn_dot_560, mapStatusToBounceSubType]
      rfl
    · intro hst
      simp [marshallBounceEvent, bounceTypePair, Functor.map, Except.map, hb, hst]
      rfl
    · intro s hst hlen
      by_cases hse : s = ""
      · simp [marshallBounceEvent, bounceTypePair, Functor.map, Except.map, hb, hst, hse]
        rfl
      · simp [marshallBounceEvent, bounceTypePair, Functor.map, Except.map, hb, hst, hse, hlen]
        rfl
  · intro hd
    simp [marshallBounceEvent, bounceTypePair, Functor.map, Except.map, hd]
    rfl

/-- Witness for C3 at a concrete bounce event with status `"5.1.1"`. -/
theorem bounce_subtype_mapping_witness :
    ({ timestamp := .num 1, sg_message_id := .str "m", event := .str "bounce",
       email := .str "a@b", status := .str "5.1.1", response := .undefined,
       sg_event_id := .str "fb" } : RawEvent).event = .str "bounce"
    ∧ marshallBounceEvent
        { timestamp := .num 1, sg_message_id := .str "m", event := .str "bounce",
          email := .str "a@b", status := .str "5.1.1", response := .undefined,
          sg_event_id := .str "fb" } "T" = .ok (.bounce
        { bounceType := "Permanent", bounceSubType := "NoEmail",
          bouncedRecipients := [{ emailAddress := .str "a@b" }],
          timestamp := "T", feedbackId := .str "fb" }) :=
  ⟨rfl,
   ((bounce_subtype_mapping
      { timestamp := .num 1, sg_message_id := .str "m", event := .str "bounce",
        email := .str "a@b", status := .str "5.1.1", response := .undefined,
        sg_event_id := .str "fb" } "T").1 rfl).1 rfl⟩

/-! ## Absent results of the normalizer -/

/-- Counterexample to C4 as stated: this event's `timestamp`,
`sg_message_id` and `event` are all present and truthy and its `event`
value `"weird"` is unrecognized, so the claim promises an absent result and
no error; but `"abc" * 1000` is `NaN` and `new Date(NaN).toISOString()`
throws a `RangeError` before the event kind is ever examined, so
`marshallEvent` raises instead. -/
theorem unrecognized_event_can_throw :
    marshallEvent (fun n => toString n) (some
      { timestamp := .str "abc", sg_message_id := .str "x", event := .str "weird",
        email := .undefined, status := .undefined, response := .undefined,
        sg_event_id := .undefined }) = .error () := by
  decide

theorem marshallEvent_falsy_ok_none (toISO : Int → String) (e : RawEvent)
    (h : (!e.timestamp.truthy || !e.sg_message_id.truthy || !e.event.truthy) = true) :
    marshallEvent toISO (some e) = .ok none := by
  simp [marshallEvent, h]

theorem marshallEvent_unrecognized_ok_none (toISO : Int → String)
    (e : RawEvent) (t m : String)
    (hts : mapTimestamp toISO e.timestamp = .ok t)
    (hm : e.sg_message_id = .str m)
    (h1 : e.event ≠ .str "bounce") (h2 : e.event ≠ .str "dropped")
    (h3 : e.event ≠ .str "delivered") (h4 : e.event ≠ .str "spamreport") :
    marshallEvent toISO (some e) = .ok none := by
  by_cases hg : (!e.timestamp.truthy || !e.sg_message_id.truthy || !e.event.truthy) = true
  · simp [marshallEvent, hg]
  · simp only [marshallEvent, hg, Bool.false_eq_true, if_false]
    rw [hts]
    simp only [bind, Except.bind]
    simp only [marshallMailObject, hm]
    rfl

/-- C4 amended: a falsy input element and an event missing (or with falsy)
`timestamp`, `sg_message_id` or `event` always produce an absent result
with no error; an event with an unrecognized `event` value produces an
absent result with no error provided its timestamp converts to a valid
date and its `sg_message_id` is a string — otherwise the timestamp
conversion or the message-id split throws before the `event` switch is
reached. -/
theorem marshall_absent_cases (toISO : Int → String) :
    marshallEvent toISO none = .ok none
    ∧ (∀ e : RawEvent,
        (!e.timestamp.truthy || !e.sg_message_id.truthy || !e.event.truthy) = true →
        marshallEvent toISO (some e) = .ok none)
    ∧ (∀ (e : RawEvent) (t m : String),
        mapTimestamp toISO e.timestamp = .ok t →
        e.sg_message_id = .str m →
        e.event ≠ .str "bounce" → e.event ≠ .str "dropped" →
        e.event ≠ .str "delivered" → e.event ≠ .str "spamreport" →
        marshallEvent toISO (some e) = .ok none) :=
  ⟨rfl, marshallEvent_falsy_ok_none toISO,
   fun e t m hts hm h1 h2 h3 h4 =>
     marshallEvent_unrecognized_ok_none toISO e t m hts hm h1 h2 h3 h4⟩

/-- Witness for the amended C4 at a concrete well-timestamped event with
an unrecognized `event` value. -/
theorem marshall_absent_cases_witness :
    mapTimestamp (fun n => toString n)
      ({ timestamp := .num 1, sg_message_id := .str "m", event := .str "weird",
         email := .undefined, status := .undefined, response := .undefined,
         sg_event_id := .undefined } : RawEvent).timestamp = .ok "1000"
    ∧ marshallEvent (fun n => toString n) (some
        { timestamp := .num 1, sg_message_id := .str "m", event := .str "weird",
          email := .undefined, status := .undefined, response := .undefined,
          sg_event_id := .undefined }) = .ok none :=
  ⟨by decide,
   (marshall_absent_cases (fun n => toString n)).2.2
     { timestamp := .num 1, sg_message_id := .str "m", event := .str "weird",
       email := .undefined, status := .undefined, response := .undefined,
       sg_event_id := .undefined }
     "1000" "m" (by decide) rfl (by decide) (by decide) (by decide) (by decide)⟩

/-! ## Totality of the normalizer on well-typed events -/

theorem bounceTypePair_ok (e : RawEvent)
    (hstatus : e.status = .undefined ∨ ∃ s : String, e.status = .str s) :
    ∃ pair : Option String × Option String, bounceTypePair e = .ok pair := by
  by_cases hd : e.event = .str "dropped"
  · exact ⟨(some "Permanent", some "Suppressed"), by simp [bounceTypePair, hd]; rfl⟩
  · rcases hstatus with h | ⟨s, h⟩
    · exact ⟨(none, none), by simp [bounceTypePair, hd, h]; rfl⟩
    · by_cases hse : s = ""
      · exact ⟨(none, none), by simp [bounceTypePair, hd, h, hse]; rfl⟩
      · by_cases hlen : (jsSplitOn "." s).length = 3
        · exact ⟨((if (jsSplitOn "." s).get? 0 = some "5" then some "Permanent" else none),
            mapStatusToBounceSubType (jsSplitOn "." s)),
            by simp [bounceTypePair, hd, h, hse, hlen]; rfl⟩
        · exact ⟨(none, none), by simp [bounceTypePair, hd, h, hse, hlen]; rfl⟩

theorem marshallBounceEvent_ok (e : RawEvent) (ts : String)
    (hstatus : e.status = .undefined ∨ ∃ s : String, e.status = .str s) :
    ∃ bt bst : String, marshallBounceEvent e ts = .ok (.bounce
      { bounceType := bt, bounceSubType := bst,
        bouncedRecipients := [{ emailAddress := e.email }],
        timestamp := ts, feedbackId := e.sg_event_id }) := by
  obtain ⟨pair, hp⟩ := bounceTypePair_ok e hstatus
  exact ⟨pair.1.getD "Transient", pair.2.getD "General",
    by simp [marshallBounceEvent, hp, Functor.map, Except.map]⟩

theorem marshallBounceEvent_ok_dropped (e : RawEvent) (ts : String)
    (hd : e.event = .str "dropped") :
    ∃ bt bst : String, marshallBounceEvent e ts = .ok (.bounce
      { bounceType := bt, bounceSubType := bst,
        bouncedRecipients := [{ emailAddress := e.email }],
        timestamp := ts, feedbackId := e.sg_event_id }) := by
  refine ⟨"Permanent", "Suppressed", ?_⟩
  simp [marshallBounceEvent, bounceTypePair, hd, Functor.map, Except.map]
  rfl

/-- The optional raw fields (`email`, `response`, `sg_event_id`) are carried
into the produced notification verbatim, so an absent (`undefined`) input
yields an absent output field rather than an error. -/
def optionalFieldsVerbatim (e : RawEvent) : NotificationBody → Prop
  | .bounce b =>
    b.bouncedRecipients = [{ emailAddress := e.email }] ∧ b.feedbackId = e.sg_event_id
  | .delivery d => d.recipients = [e.email] ∧ d.smtpResponse = e.response
  | .complaint c =>
    c.complainedRecipients = [{ emailAddress := e.email }] ∧ c.feedbackId = e.sg_event_id

/-- Counterexample to C10 as stated: this event's required fields are
present and truthy, its `sg_message_id` is a string and its `status` is
absent, so the claim promises no throw; but the truthy string timestamp
`"zzz"` coerces to `NaN` and `toISOString` throws a `RangeError`. -/
theorem wellformed_event_can_throw :
    marshallEvent (fun n => toString n) (some
      { timestamp := .str "zzz", sg_message_id := .str "x", event := .str "bounce",
        email := .undefined, status := .undefined, response := .undefined,
        sg_event_id := .undefined }) = .error () := by
  decide

/-- C10 amended: when additionally the timestamp converts to a valid date
(`mapTimestamp` succeeds — in particular whenever it is an integer of at
most 8.64e12 seconds in magnitude), normalization never throws: it returns
a value, and absence of `email`, `response` or `sg_event_id` merely leaves
the corresponding output fields absent, which are copied verbatim.  The
status field is constrained — absent or a string — only on bounce events:
no other event kind ever inspects it. -/
theorem marshall_no_throw (toISO : Int → String) (e : RawEvent) (t m : String)
    (hts : mapTimestamp toISO e.timestamp = .ok t)
    (hm : e.sg_message_id = .str m)
    (hstatus : e.event = .str "bounce" →
      (e.status = .undefined ∨ ∃ s : String, e.status = .str s)) :
    (∃ r : Option Notification, marshallEvent toISO (some e) = .ok r)
    ∧ (∀ n : Notification, marshallEvent toISO (some e) = .ok (some n) →
        optionalFieldsVerbatim e n.body) := by
  by_cases hg : (!e.timestamp.truthy || !e.sg_message_id.truthy || !e.event.truthy) = true
  · refine ⟨⟨none, by simp [marshallEvent, hg]⟩, ?_⟩
    intro n h
    simp [marshallEvent, hg] at h
  · rcases hev : e.event with _ | s | k
    · rw [hev] at hg
      simp [JsValue.truthy] at hg
    · by_cases hb : s = "bounce"
      · subst hb
        obtain ⟨bt, bst, hbe⟩ := marshallBounceEvent_ok e t (hstatus hev)
        have hok : marshallEvent toISO (some e) = .ok (some
            { mail := { timestamp := t, messageId := (jsSplitOn ".filter" m).headD "" },
              body := .bounce
                { bounceType := bt, bounceSubType := bst,
                  bouncedRecipients := [{ emailAddress := e.email }],
                  timestamp := t, feedbackId := e.sg_event_id } }) := by
          simp only [marshallEvent, hg, Bool.false_eq_true, if_false]
          rw [hts]
          simp only [bind, Except.bind]
          simp only [marshallMailObject, hm]
          rw [hev, hbe]
          rfl
        refine ⟨⟨_, hok⟩, ?_⟩
        intro n h
        rw [hok] at h
        injection h with h
        injection h with h
        rw [← h]
        exact ⟨rfl, rfl⟩
      · by_cases hd : s = "dropped"
        · subst hd
          obtain ⟨bt, bst, hbe⟩ := marshallBounceEvent_ok_dropped e t hev
          have hok : marshallEvent toISO (some e) = .ok (some
              { mail := { timestamp := t, messageId := (jsSplitOn ".filter" m).headD "" },
                body := .bounce
                  { bounceType := bt, bounceSubType := bst,
                    bouncedRecipients := [{ emailAddress := e.email }],
                    timestamp := t, feedbackId := e.sg_event_id } }) := by
            simp only [marshallEvent, hg, Bool.false_eq_true, if_false]
            rw [hts]
            simp only [bind, Except.bind]
            simp only [marshallMailObject, hm]
            rw [hev, hbe]
            rfl
          refine ⟨⟨_, hok⟩, ?_⟩
          intro n h
          rw [hok] at h
          injection h with h
          injection h with h
          rw [← h]
          exact ⟨rfl, rfl⟩
        · by_cases hdel : s = "delivered"
          · subst hdel
            have hok : marshallEvent toISO (some e) = .ok (some
                { mail := { timestamp := t, messageId := (jsSplitOn ".filter" m).headD "" },
                  body := .delivery
                    { timestamp := t, recipients := [e.email],
                      smtpResponse := e.response } }) := by
              simp only [marshallEvent, hg, Bool.false_eq_true, if_false]
              rw [hts]
              simp only [bind, Except.bind]
              simp only [marshallMailObject, hm]
              rw [hev]
              rfl
            refine ⟨⟨_, hok⟩, ?_⟩
            intro n h
            rw [hok] at h
            injection h with h
            injection h with h
            rw [← h]
            exact ⟨rfl, rfl⟩
          · by_cases hsp : s = "spamreport"
            · subst hsp
              have hok : marshallEvent toISO (some e) = .ok (some
                  { mail := { timestamp := t, messageId := (jsSplitOn ".filter" m).headD "" },
                    body := .complaint
                      { complainedRecipients := [{ emailAddress := e.email }],
                        timestamp := t, feedbackId := e.sg_event_id } }) := by
                simp only [marshallEvent, hg, Bool.false_eq_true, if_false]
                rw [hts]
                simp only [bind, Except.bind]
                simp only [marshallMailObject, hm]
                rw [hev]
                rfl
              refine ⟨⟨_, hok⟩, ?_⟩
              intro n h
              rw [hok] at h
              injection h with h
              injection h with h
              rw [← h]
              exact ⟨rfl, rfl⟩
            · have h1 : e.event ≠ .str "bounce" := by rw [hev]; simp [hb]
              have h2 : e.event ≠ .str "dropped" := by rw [hev]; simp [hd]
              have h3 : e.event ≠ .str "delivered" := by rw [hev]; simp [hdel]
              have h4 : e.event ≠ .str "spamreport" := by rw [hev]; simp [hsp]
              have hok := marshallEvent_unrecognized_ok_none toISO e t m hts hm h1 h2 h3 h4
              refine ⟨⟨none, hok⟩, ?_⟩
              intro n h
              rw [hok] at h
              simp at h
    · have hok : marshallEvent toISO (some e) = .ok none := by
        simp only [marshallEvent, hg, Bool.false_eq_true, if_false]
        rw [hts]
        simp only [bind, Except.bind]
        simp only [marshallMailObject, hm]
        rw [hev]
        rfl
      refine ⟨⟨none, hok⟩, ?_⟩
      intro n h
      rw [hok] at h
      simp at h

/-- Witness for the amended C10 at a concrete bounce event whose optional
fields are all absent. -/
theorem marshall_no_throw_witness :
    mapTimestamp (fun n => toString n)
      ({ timestamp := .num 2, sg_message_id := .str "mm", event := .str "bounce",
         email := .undefined, status := .undefined, response := .undefined,
         sg_event_id := .undefined } : RawEvent).timestamp = .ok "2000"
    ∧ ((∃ r : Option Notification, marshallEvent (fun n => toString n) (some
          { timestamp := .num 2, sg_message_id := .str "mm", event := .str "bounce",
            email := .undefined, status := .undefined, response := .undefined,
            sg_event_id := .undefined }) = .ok r)
       ∧ (∀ n : Notification, marshallEvent (fun n => toString n) (some
            { timestamp := .num 2, sg_message_id := .str "mm", event := .str "bounce",
              email := .undefined, status := .undefined, response := .undefined,
              sg_event_id := .undefined }) = .ok (some n) →
          optionalFieldsVerbatim
            { timestamp := .num 2, sg_message_id := .str "mm", event := .str "bounce",
              email := .undefined, status := .undefined, response := .undefined,
              sg_event_id := .undefined } n.body)) :=
  ⟨by decide,
   marshall_no_throw (fun n => toString n)
     { timestamp := .num 2, sg_message_id := .str "mm", event := .str "bounce",
       email := .undefined, status := .undefined, response := .undefined,
       sg_event_id := .undefined }
     "2000" "mm" (by decide) rfl (fun _ => Or.inl rfl)⟩

/-! ## Timestamp coherence -/

theorem marshallMailObject_timestamp (e : RawEvent) (ts : String) (mail : Mail)
    (h : marshallMailObject e ts = .ok mail) : mail.timestamp = ts := by
  rcases hsm : e.sg_message_id with _ | s | k
  · simp [marshallMailObject, hsm] at h
  · simp only [marshallMailObject, hsm, Except.ok.injEq] at h
    rw [← h]
  · simp [marshallMailObject, hsm] at h

theorem marshallBounceEvent_timestamp (e : RawEvent) (ts : String)
    (body : NotificationBody) (h : marshallBounceEvent e ts = .ok body) :
    body.timestampOf = ts := by
  cases hp : bounceTypePair e with
  | error u =>
    simp [marshallBounceEvent, Functor.map, Except.map, hp] at h
  | ok pair =>
    simp only [marshallBounceEvent, Functor.map, Except.map, hp, bind, Except.bind,
      pure, Except.pure, Except.ok.injEq] at h
    rw [← h]
    rfl

/-- C9: every notification produced by the normalizer carries the same
timestamp string in `mail.timestamp` and in the `timestamp` field of its
bounce / delivery / complaint sub-record, and that shared string is the
successful conversion `mapTimestamp` of the raw event's timestamp — i.e.
`toISO` of `raw.timestamp * 1000`, computed once. -/
theorem mail_and_body_timestamps_agree (toISO : Int → String) (e : RawEvent)
    (n : Notification) (h : marshallEvent toISO (some e) = .ok (some n)) :
    n.mail.timestamp = n.body.timestampOf
    ∧ mapTimestamp toISO e.timestamp = .ok n.mail.timestamp := by
  by_cases hg : (!e.timestamp.truthy || !e.sg_message_id.truthy || !e.event.truthy) = true
  · simp [marshallEvent, hg] at h
  · cases hts : mapTimestamp toISO e.timestamp with
    | error u =>
      simp only [marshallEvent, hg, Bool.false_eq_true, if_false] at h
      rw [hts] at h
      simp [bind, Except.bind] at h
    | ok t =>
      simp only [marshallEvent, hg, Bool.false_eq_true, if_false] at h
      rw [hts] at h
      simp only [bind, Except.bind] at h
      cases hmo : marshallMailObject e t with
      | error u =>
        rw [hmo] at h
        simp at h
      | ok mail =>
        rw [hmo] at h
        dsimp only at h
        have hmt : mail.timestamp = t := marshallMailObject_timestamp e t mail hmo
        split at h
        · split at h
          · exact absurd h (by simp)
          · rename_i body hbe
            have hn : n = { mail := mail, body := body } := by
              injection h with h
              injection h with h
              exact h.symm
            rw [hn]
            exact ⟨by rw [hmt, marshallBounceEvent_timestamp e t body hbe], by exact congrArg Except.ok hmt.symm⟩
        · split at h
          · exact absurd h (by simp)
          · rename_i body hbe
            have hn : n = { mail := mail, body := body } := by
              injection h with h
              injection h with h
              exact h.symm
            rw [hn]
            exact ⟨by rw [hmt, marshallBounceEvent_timestamp e t body hbe], by exact congrArg Except.ok hmt.symm⟩
        · have hn : n = { mail := mail, body := marshallDeliveryEvent e t } := by
            injection h with h
            injection h with h
            exact h.symm
          rw [hn]
          exact ⟨by rw [hmt]; rfl, by exact congrArg Except.ok hmt.symm⟩
        · have hn : n = { mail := mail, body := marshallComplaintEvent e t } := by
            injection h with h
            injection h with h
            exact h.symm
          rw [hn]
          exact ⟨by rw [hmt]; rfl, by exact congrArg Except.ok hmt.symm⟩
        · injection h with h
          exact absurd h (by simp)

/-- A concrete delivered raw event used to witness C9. -/
def sampleDeliveredEvent : RawEvent where
  timestamp := .num 1
  sg_message_id := .str "x"
  event := .str "delivered"
  email := .undefined
  status := .undefined
  response := .undefined
  sg_event_id := .undefined

/-- The notification the normalizer produces for `sampleDeliveredEvent`. -/
def sampleDeliveredNotification : Notification where
  mail := { timestamp := "1000", messageId := "x" }
  body := .delivery
    { timestamp := "1000", recipients := [.undefined], smtpResponse := .undefined }

/-- Witness for C9 at a concrete delivered event. -/
theorem mail_and_body_timestamps_agree_witness :
    sampleDeliveredNotification.mail.timestamp =
      sampleDeliveredNotification.body.timestampOf
    ∧ mapTimestamp (fun n => toString n) sampleDeliveredEvent.timestamp =
        .ok sampleDeliveredNotification.mail.timestamp :=
  mail_and_body_timestamps_agree (fun n => toString n)
    sampleDeliveredEvent sampleDeliveredNotification
    (by
      simp [sampleDeliveredEvent, sampleDeliveredNotification, marshallEvent,
        mapTimestamp, dateToISO, MAX_TIME_MS, marshallMailObject, jsSplitOn,
        jsplit, List.isPrefixOf, marshallDeliveryEvent, JsValue.truthy]
      decide)

/-! ## Properties of the request handler -/

/-- Counterexample to C1 as stated: a gateway request with a body whose
`queryStringParameters` object is present but carries no `auth` member.
The claim promises a 401 when the authentication query parameter is
absent; in the code `authenticate(undefined)` reaches `crypto`'s
`hash.update(undefined)`, which throws, so the catch block answers 500
instead.  No dispatch call is made either way. -/
theorem absent_auth_param_gives_500 :
    (main (fun s => s) "sec" (fun n => toString n) "q" (fun _ _ => true)
        (.request (.ok (.array [])) (some none))).1.statusCode = 500
    ∧ (main (fun s => s) "sec" (fun n => toString n) "q" (fun _ _ => true)
        (.request (.ok (.array [])) (some none))).1.statusCode ≠ 401
    ∧ (main (fun s => s) "sec" (fun n => toString n) "q" (fun _ _ => true)
        (.request (.ok (.array [])) (some none))).2 = [] :=
  ⟨rfl, by decide, rfl⟩

/-- C1 amended: for a request carrying a body, a missing
`queryStringParameters` object, or a present `auth` value rejected by
`authenticate`, yields `401 Unauthorized` with zero dispatch calls; when
`queryStringParameters` is present but its `auth` member is absent, the
digest of `undefined` throws and the handler answers 500 — still with
zero dispatch calls.  No unauthenticated request dispatches anything. -/
theorem unauthenticated_request_rejected (hash : String → String) (secret : String)
    (toISO : Int → String) (suffix : String)
    (push : String → Notification → Bool) (body : Except Unit Payload) :
    main hash secret toISO suffix push (.request body none) = (response401, [])
    ∧ (∀ a : String, authenticate hash secret (some a) = .ok false →
        main hash secret toISO suffix push (.request body (some (some a))) =
          (response401, []))
    ∧ main hash secret toISO suffix push (.request body (some none)) =
        (response500, []) := by
  refine ⟨rfl, ?_, rfl⟩
  intro a ha
  simp [main, ha]

/-- Witness for the amended C1 at a rejected concrete credential. -/
theorem unauthenticated_request_rejected_witness :
    authenticate (fun s => s) "sec" (some "x") = .ok false
    ∧ main (fun s => s) "sec" (fun n => toString n) "q" (fun _ _ => true)
        (.request (.ok (.array [])) (some (some "x"))) = (response401, []) :=
  ⟨by decide,
   (unauthenticated_request_rejected (fun s => s) "sec" (fun n => toString n)
      "q" (fun _ _ => true) (.ok (.array []))).2.1 "x" (by decide)⟩

theorem main_direct_success (hash : String → String) (secret : String)
    (toISO : Int → String) (suffix : String) (push : String → Notification → Bool)
    (payload : Payload) (marshalled : List (Option Notification))
    (hma : marshallAll toISO payload.toArray = .ok marshalled)
    (hall : ∀ n ∈ survivors marshalled, sendEvent suffix push n = true) :
    main hash secret toISO suffix push (.direct payload) =
      ({ statusCode := 200,
         body := "Processed " ++ toString (survivors marshalled).length ++ " events",
         isBase64Encoded := false },
       (survivors marshalled).map fun n => (queueFor suffix n.body, n)) := by
  simp [main, processEvents, hma, List.all_eq_true.mpr hall]

/-- The 3+1 batch from the spec: three valid events and one event missing
its `event` field. -/
def sampleBatch : List (Option RawEvent) :=
  [some { timestamp := .num 1, sg_message_id := .str "id1", event := .str "delivered",
          email := .str "a@x", status := .undefined, response := .str "250 OK",
          sg_event_id := .str "f1" },
   some { timestamp := .num 2, sg_message_id := .str "id2", event := .str "bounce",
          email := .str "b@x", status := .str "5.1.1", response := .undefined,
          sg_event_id := .str "f2" },
   some { timestamp := .num 3, sg_message_id := .str "id3", event := .str "spamreport",
          email := .str "c@x", status := .undefined, response := .undefined,
          sg_event_id := .str "f3" },
   some { timestamp := .num 4, sg_message_id := .str "id4", event := .undefined,
          email := .str "d@x", status := .undefined, response := .undefined,
          sg_event_id := .str "f4" }]

theorem marshallAll_sampleBatch (toISO : Int → String) :
    marshallAll toISO sampleBatch = .ok
      [some
        { mail := { timestamp := toISO 1000, messageId := "id1" },
          body := .delivery
            { timestamp := toISO 1000, recipients := [.str "a@x"],
              smtpResponse := .str "250 OK" } },
       some
        { mail := { timestamp := toISO 2000, messageId := "id2" },
          body := .bounce
            { bounceType := "Permanent", bounceSubType := "NoEmail",
              bouncedRecipients := [{ emailAddress := .str "b@x" }],
              timestamp := toISO 2000, feedbackId := .str "f2" } },
       some
        { mail := { timestamp := toISO 3000, messageId := "id3" },
          body := .complaint
            { complainedRecipients := [{ emailAddress := .str "c@x" }],
              timestamp := toISO 3000, feedbackId := .str "f3" } },
       none] := by
  simp +decide [marshallAll, sampleBatch, marshallEvent, mapTimestamp, dateToISO,
    MAX_TIME_MS, marshallMailObject, jsSplitOn, jsplit, List.isPrefixOf,
    marshallDeliveryEvent, marshallComplaintEvent, marshallBounceEvent,
    bounceTypePair, Functor.map, Except.map, mapStatusToBounceSubType,
    JsValue.truthy, bind, Except.bind, pure, Except.pure]

/-- C6: when every attempted publish succeeds, the handler answers 200 and
its body reports exactly the number of events that survived normalization
— which is exactly the number of dispatch calls made.  The second
conjunct instantiates this at a batch of three valid events plus one
event missing its `event` field: exactly three dispatch calls and a body
reporting 3 processed; the invalid event produces neither a call nor an
error. -/
theorem success_reports_count (hash : String → String) (secret : String)
    (toISO : Int → String) (suffix : String)
    (push : String → Notification → Bool) :
    (∀ (payload : Payload) (marshalled : List (Option Notification)),
      marshallAll toISO payload.toArray = .ok marshalled →
      (∀ n ∈ survivors marshalled, sendEvent suffix push n = true) →
      main hash secret toISO suffix push (.direct payload) =
        ({ statusCode := 200,
           body := "Processed " ++ toString (survivors marshalled).length ++ " events",
           isBase64Encoded := false },
         (survivors marshalled).map fun n => (queueFor suffix n.body, n)))
    ∧ ((∀ q n, push q n = true) →
        (main hash secret toISO suffix push (.direct (.array sampleBatch))).1 =
          { statusCode := 200, body := "Processed 3 events", isBase64Encoded := false }
        ∧ (main hash secret toISO suffix push (.direct (.array sampleBatch))).2.length = 3) := by
  constructor
  · intro payload marshalled hma hall
    exact main_direct_success hash secret toISO suffix push payload marshalled hma hall
  · intro hp
    have hma : marshallAll toISO (Payload.toArray (.array sampleBatch)) =
        .ok _ := marshallAll_sampleBatch toISO
    have h := main_direct_success hash secret toISO suffix push (.array sampleBatch)
      _ hma (fun n _ => hp _ n)
    rw [h]
    constructor
    · simp [survivors]
      rfl
    · simp [survivors]

/-- Witness for C6 with an always-successful push capability. -/
theorem success_reports_count_witness :
    (main (fun s => s) "sec" (fun n => toString n) "q" (fun _ _ => true)
        (.direct (.array sampleBatch))).1 =
      { statusCode := 200, body := "Processed 3 events", isBase64Encoded := false }
    ∧ (main (fun s => s) "sec" (fun n => toString n) "q" (fun _ _ => true)
        (.direct (.array sampleBatch))).2.length = 3 :=
  (success_reports_count (fun s => s) "sec" (fun n => toString n) "q"
    (fun _ _ => true)).2 (fun _ _ => rfl)

/-- C7: every exception between body parsing and dispatch is answered with
the generic `500 Internal Server Error` and nothing else leaks: a body
that fails to parse (after successful authentication), a batch whose
normalization throws, and a batch in which any single publish fails.  An
authenticated parsed request behaves exactly like a direct invocation of
its payload, and on a publish failure every survivor's dispatch call is
still issued — the failure is surfaced, not swallowed. -/
theorem exceptions_give_500 (hash : String → String) (secret : String)
    (toISO : Int → String) (suffix : String)
    (push : String → Notification → Bool) :
    (∀ a : String, authenticate hash secret (some a) = .ok true →
      main hash secret toISO suffix push (.request (.error ()) (some (some a))) =
        (response500, []))
    ∧ (∀ (a : String) (body : Except Unit Payload) (payload : Payload),
        authenticate hash secret (some a) = .ok true → body = .ok payload →
        main hash secret toISO suffix push (.request body (some (some a))) =
          main hash secret toISO suffix push (.direct payload))
    ∧ (∀ payload : Payload, marshallAll toISO payload.toArray = .error () →
        main hash secret toISO suffix push (.direct payload) = (response500, []))
    ∧ (∀ (payload : Payload) (marshalled : List (Option Notification)),
        marshallAll toISO payload.toArray = .ok marshalled →
        (∃ n ∈ survivors marshalled, sendEvent suffix push n = false) →
        (main hash secret toISO suffix push (.direct payload)).1 = response500
        ∧ (main hash secret toISO suffix push (.direct payload)).2 =
            (survivors marshalled).map fun n => (queueFor suffix n.body, n)) := by
  refine ⟨?_, ?_, ?_, ?_⟩
  · intro a ha
    simp [main, ha]
  · intro a body payload ha hb
    rw [hb]
    simp [main, ha]
  · intro payload hma
    simp [main, processEvents, hma]
  · intro payload marshalled hma hex
    have hallf : (survivors marshalled).all (sendEvent suffix push) = false := by
      rcases hex with ⟨n, hn, hfalse⟩
      cases hall : (survivors marshalled).all (sendEvent suffix push) with
      | false => rfl
      | true =>
        have := List.all_eq_true.mp hall n hn
        rw [hfalse] at this
        simp at this
    constructor
    · simp [main, processEvents, hma, hallf]
    · simp [main, processEvents, hma, hallf]

/-- Witness for C7 at a concrete batch whose single publish fails. -/
theorem exceptions_give_500_witness :
    (∃ n ∈ survivors [some
        { mail := { timestamp := "1000", messageId := "w" },
          body := .delivery
            { timestamp := "1000", recipients := [.undefined], smtpResponse := .undefined } }],
      sendEvent "q" (fun _ _ => false) n = false)
    ∧ (main (fun s => s) "sec" (fun n => toString n) "q" (fun _ _ => false)
        (.direct (.single (some
          { timestamp := .num 1, sg_message_id := .str "w", event := .str "delivered",
            email := .undefined, status := .undefined, response := .undefined,
            sg_event_id := .undefined })))).1 = response500 := by
  constructor
  · exact ⟨{ mail := { timestamp := "1000", messageId := "w" },
             body := .delivery
               { timestamp := "1000", recipients := [.undefined],
                 smtpResponse := .undefined } },
      by simp [survivors], rfl⟩
  · exact ((exceptions_give_500 (fun s => s) "sec" (fun n => toString n) "q"
      (fun _ _ => false)).2.2.2
      (.single (some
        { timestamp := .num 1, sg_message_id := .str "w", event := .str "delivered",
          email := .undefined, status := .undefined, response := .undefined,
          sg_event_id := .undefined }))
      [some
        { mail := { timestamp := "1000", messageId := "w" },
          body := .delivery
            { timestamp := "1000", recipients := [.undefined], smtpResponse := .undefined } }]
      (by
        simp +decide [marshallAll, marshallEvent, mapTimestamp, dateToISO,
          MAX_TIME_MS, marshallMailObject, jsSplitOn, jsplit, List.isPrefixOf,
          marshallDeliveryEvent, JsValue.truthy, Payload.toArray, bind,
          Except.bind, pure, Except.pure])
      ⟨{ mail := { timestamp := "1000", messageId := "w" },
         body := .delivery
           { timestamp := "1000", recipients := [.undefined],
             smtpResponse := .undefined } },
        by simp [survivors], rfl⟩).1

end Sendgrid
